import Mathlib

/-!
Shallow embedding of the `whats_up_docker` Home Assistant custom integration
(files `coordinator.py` and `update.py`).  Python strings are modelled as
`List Char`; the Python `str` operations used by the source
(`endswith`, `replace`, `re.search(r"\d+$", tag)`, `in`, `+`) are defined
below with CPython semantics (for the nonempty patterns the source uses,
and with `\d` read as the ASCII decimal digits that all tags in scope use).
Fallible Python code (property getters that can raise `TypeError`) is
modelled with `Except`; network effects are modelled by passing the HTTP
response in as data and returning the request that would be issued.
-/

namespace WUD

/-- Python strings, modelled as lists of characters. -/
abbrev Str := List Char

/-- Coerce a Lean string literal into the `Str` model. -/
def str (s : String) : Str := s.data

/-- Python `s.endswith(suffix)`. -/
def pyEndsWith (s suffix : Str) : Bool := suffix.isSuffixOf s

/-- Python `sub in s` (substring containment). -/
def pyContains (s sub : Str) : Bool := decide (sub <:+: s)

/-- Worker for `pyReplace`: scans left to right; the `Nat` counts characters
still to skip because they were covered by an already-replaced match. -/
def replaceGo (pat rep : Str) : Str → Nat → Str
  | [], _ => []
  | _ :: rest, k + 1 => replaceGo pat rep rest k
  | c :: rest, 0 =>
    if pat.isPrefixOf (c :: rest) then rep ++ replaceGo pat rep rest (pat.length - 1)
    else c :: replaceGo pat rep rest 0

/-- Python `s.replace(pat, rep)`: replaces every non-overlapping occurrence,
left to right.  (Faithful for nonempty `pat`, the only case the source uses.) -/
def pyReplace (s pat rep : Str) : Str := replaceGo pat rep s 0

/-- Python `re.search(r"\d+$", s)`: the maximal run of decimal digits at the
end of `s`; the regex matches exactly when this run is nonempty, and its
`group()` is the run. -/
def trailingDigits (s : Str) : Str := (s.reverse.takeWhile Char.isDigit).reverse

/-- `container["image"]["tag"]`, read with `.get("value")`. -/
structure TagInfo where
  value : Option Str
deriving DecidableEq

/-- `container["image"]`, read with `.get("tag", {})`. -/
structure ImageInfo where
  tag : Option TagInfo
deriving DecidableEq

/-- `container["result"]`, read with `.get("tag")` / `.get("link")`. -/
structure ResultInfo where
  tag : Option Str
  link : Option Str
deriving DecidableEq

/-- One container record from the WUD `/api/containers` JSON array.  Only the
fields the integration reads are modelled.  `name` is required (the dict
comprehension indexes `container["name"]`); every other field may be absent.
`updateAvailable` is read with a truthiness test, so absent ≡ `false`. -/
structure ContainerRecord where
  name : Str
  image : Option ImageInfo
  updateAvailable : Bool
  result : Option ResultInfo
  link : Option Str
  labels : List (Str × Str)
  id : Option Str
deriving DecidableEq

/-- `container_data.get("image", {}).get("tag", {}).get("value")`. -/
def ContainerRecord.imageTagValue (r : ContainerRecord) : Option Str :=
  match r.image with
  | none => none
  | some im =>
    match im.tag with
    | none => none
    | some t => t.value

/-- `container_data.get("result", {}).get("tag")`. -/
def ContainerRecord.resultTag (r : ContainerRecord) : Option Str :=
  match r.result with
  | none => none
  | some res => res.tag

/-- `container_data.get("result", {}).get("link")`. -/
def ContainerRecord.resultLink (r : ContainerRecord) : Option Str :=
  match r.result with
  | none => none
  | some res => res.link

/-- The coordinator snapshot: a Python dict keyed by container name,
modelled as an association list with unique keys in insertion order. -/
abbrev Snapshot := List (Str × ContainerRecord)

/-- Python `dict.get(k)` on the snapshot. -/
def lookupName (data : Snapshot) (k : Str) : Option ContainerRecord :=
  match data with
  | [] => none
  | (k₀, v) :: rest => if k₀ = k then some v else lookupName rest k

/-- Python `labels.get(key)` on a record's label dict. -/
def lookupLabel (labels : List (Str × Str)) (k : Str) : Option Str :=
  match labels with
  | [] => none
  | (k₀, v) :: rest => if k₀ = k then some v else lookupLabel rest k

/-- Python dict assignment `m[k] = v`: overwrites in place if the key is
present, else appends (insertion order preserved). -/
def dictInsert (m : Snapshot) (k : Str) (v : ContainerRecord) : Snapshot :=
  match m with
  | [] => [(k, v)]
  | (k₀, v₀) :: rest => if k₀ = k then (k, v) :: rest else (k₀, v₀) :: dictInsert rest k v

/-- `{container["name"]: container for container in data}` from
`WUDDataUpdateCoordinator._async_update_data`. -/
def buildSnapshot (containers : List ContainerRecord) : Snapshot :=
  containers.foldl (fun m c => dictInsert m c.name c) []

/-- The ways `_async_fetch_data` / `asyncio.wait_for` can fail: `TimeoutError`,
`aiohttp.ClientError`, or any other exception. -/
inductive FetchError where
  | timeout (msg : Str)
  | clientError (msg : Str)
  | other (msg : Str)
deriving DecidableEq

/-- `WUDDataUpdateCoordinator._async_update_data`: on a successful fetch,
builds the name-keyed snapshot; every exception is caught and re-raised as
`UpdateFailed` (modelled as the `.error` side carrying the message). -/
def async_update_data (fetched : Except FetchError (List ContainerRecord)) :
    Except Str Snapshot :=
  match fetched with
  | .ok containers => .ok (buildSnapshot containers)
  | .error (.timeout m) => .error (str "Timeout fetching data from WUD: " ++ m)
  | .error (.clientError m) => .error (str "Client error fetching data from WUD: " ++ m)
  | .error (.other m) => .error (str "Unexpected error fetching data from WUD: " ++ m)

/-- Coordinator state seen by entities: the stored snapshot and the
`last_update_success` flag. -/
structure CoordinatorState where
  data : Snapshot
  last_update_success : Bool
deriving DecidableEq

/-- Modelled from the spec: the `DataUpdateCoordinator` base class
(`homeassistant.helpers.update_coordinator`) is an external collaborator not
present in this repository's sources.  Per the spec, a refresh that raises
`UpdateFailed` retains the previous snapshot and sets
`last_update_success = false`; a successful refresh replaces the snapshot
atomically and sets the flag to `true`. -/
def refreshStep (s : CoordinatorState) (fetched : Except FetchError (List ContainerRecord)) :
    CoordinatorState :=
  match async_update_data fetched with
  | .ok snap => { data := snap, last_update_success := true }
  | .error _ => { data := s.data, last_update_success := false }

/-- `WUDUpdateEntity.available`: mirrors the coordinator's
`last_update_success`. -/
def entity_available (s : CoordinatorState) : Bool := s.last_update_success

/-- `WUDUpdateEntity.installed_version`. -/
def installed_version (data : Snapshot) (n : Str) : Option Str :=
  match lookupName data n with
  | none => none
  | some rec => rec.imageTagValue

/-- `WUDUpdateEntity.latest_version`. -/
def latest_version (data : Snapshot) (n : Str) : Option Str :=
  match lookupName data n with
  | none => none
  | some rec =>
    if rec.updateAvailable then rec.resultTag else rec.imageTagValue

/-- A Python exception escaping a property getter; `release_url` can raise
`TypeError` via `re.search(r"\d+$", None)`. -/
inductive PyError where
  | typeError
deriving DecidableEq

/-- The link the source chooses before the fixups: `result.link` when an
update is available, else the record's top-level `link`. -/
def chosenLink (r : ContainerRecord) : Option Str :=
  if r.updateAvailable then r.resultLink else r.link

/-- The tag the source pairs with `chosenLink`: `result.tag` when an update is
available, else `image.tag.value`. -/
def chosenTag (r : ContainerRecord) : Option Str :=
  if r.updateAvailable then r.resultTag else r.imageTagValue

/-- The two string-level fixups of `WUDUpdateEntity.release_url`, extracted as
a function of the chosen link and a present tag string. -/
def fixupLink (l t : Str) : Str :=
  if pyEndsWith l (str "undefined") then
    let ds := trailingDigits t
    if ds = [] then l else pyReplace l (str "undefined") ds
  else if pyEndsWith l (str ".") then
    let ds := trailingDigits t
    if ds = [] then l else l ++ ds
  else l

/-- `WUDUpdateEntity.release_url`.  When the chosen link ends with
`"undefined"` or `"."` but the chosen tag is absent (`None`),
`re.search(r"\d+$", tag)` raises `TypeError`, modelled by the `.error` side. -/
def release_url (data : Snapshot) (n : Str) : Except PyError (Option Str) :=
  match lookupName data n with
  | none => .ok none
  | some rec =>
    let link := if rec.updateAvailable then rec.resultLink else rec.link
    let tag := if rec.updateAvailable then rec.resultTag else rec.imageTagValue
    match link with
    | none => .ok none
    | some l =>
      if pyEndsWith l (str "undefined") then
        match tag with
        | none => .error .typeError
        | some t =>
          let ds := trailingDigits t
          if ds = [] then .ok (some l) else .ok (some (pyReplace l (str "undefined") ds))
      else if pyEndsWith l (str ".") then
        match tag with
        | none => .error .typeError
        | some t =>
          let ds := trailingDigits t
          if ds = [] then .ok (some l) else .ok (some (l ++ ds))
      else .ok (some l)

/-- Outcome of one HTTP GET against the GitHub API: a response with a status
and the JSON `body` field, or a transport-level failure. -/
inductive HttpOutcome where
  | resp (status : Nat) (body : Option Str)
  | timeout
  | clientError
  | otherError
deriving DecidableEq

/-- The `try` block of `async_release_notes`: `raise_for_status()` raises
`aiohttp.ClientResponseError` (a `ClientError`) for any status ≥ 400, and every
handler (`TimeoutError`, `aiohttp.ClientError`, bare `Exception`) returns
`None`; a 403 returns `None` before `raise_for_status` runs. -/
def fetchNotes (http : Str → HttpOutcome) (apiUrl : Str) : Option Str :=
  match http apiUrl with
  | .resp status body =>
    if status = 403 then none
    else if 400 ≤ status then none
    else body
  | .timeout => none
  | .clientError => none
  | .otherError => none

/-- `WUDUpdateEntity.async_release_notes`.  The `http` argument supplies the
outcome of the one GET the method may issue.  A `TypeError` raised by the
`release_url` property propagates (it is read outside the `try`). -/
def async_release_notes (data : Snapshot) (n : Str) (http : Str → HttpOutcome) :
    Except PyError (Option Str) :=
  match lookupName data n with
  | none => .ok none
  | some _ =>
    match release_url data n with
    | .error e => .error e
    | .ok none => .ok none
    | .ok (some url) =>
      if pyContains url (str "github.com") then
        if pyContains url (str "/releases/tag/") || pyContains url (str "/tags/") then
          let apiUrl := pyReplace url (str "https://github.com/") (str "https://api.github.com/repos/")
          let apiUrl :=
            if pyContains apiUrl (str "/releases/tag/") then
              pyReplace apiUrl (str "/releases/tag/") (str "/releases/tags/")
            else apiUrl
          .ok (fetchNotes http apiUrl)
        else if pyContains url (str "/releases/latest") then
          .ok (fetchNotes http (pyReplace url (str "https://github.com/") (str "https://api.github.com/repos/")))
        else .ok none
      else .ok none

/-- The externally visible effect of `async_install`: either no request is
issued, or one POST to the given endpoint. -/
inductive InstallAction where
  | noop
  | post (endpoint : Str)
deriving DecidableEq

/-- `WUDUpdateEntity.async_install`.  Returns the request the method issues;
all early exits are logged errors with no network call (`.noop`).  The empty
string is falsy in Python, so an empty label or id also exits early. -/
def async_install (base : Str) (data : Snapshot) (n : Str) : InstallAction :=
  match lookupName data n with
  | none => .noop
  | some rec =>
    match lookupLabel rec.labels (str "wud.trigger.hass") with
    | none => .noop
    | some trigger_name =>
      if trigger_name = [] then .noop
      else
        let trigger_url_path := pyReplace trigger_name (str ".") (str "/")
        match rec.id with
        | none => .noop
        | some container_id =>
          if container_id = [] then .noop
          else .post (base ++ str "/" ++ container_id ++ str "/triggers/" ++ trigger_url_path)

/-! Concrete container records used to instantiate the claims. -/

/-- A record with no update available, used for the C3 witness. -/
def recC3 : ContainerRecord :=
  { name := str "app", image := some { tag := some { value := some (str "v1.0") } },
    updateAvailable := false, result := none,
    link := some (str "https://github.com/o/r/releases/tag/v1.0"),
    labels := [], id := some (str "abc123") }

/-- A record linking to a GitHub tag page, used for the C6 witness. -/
def recC6 : ContainerRecord :=
  { name := str "app", image := some { tag := some { value := some (str "v1.0") } },
    updateAvailable := false, result := none,
    link := some (str "https://github.com/o/r/releases/tag/v1.0"),
    labels := [], id := some (str "abc123") }

/-- A record linking to a GitHub tag page, used for claim C5. -/
def recC5 : ContainerRecord :=
  { name := str "app", image := some { tag := some { value := some (str "v1.0") } },
    updateAvailable := false, result := none,
    link := some (str "https://github.com/o/r/releases/tag/v1.0"),
    labels := [], id := some (str "abc123") }

/-- A record with no labels at all, used for the C7 witness. -/
def recC7 : ContainerRecord :=
  { name := str "app", image := some { tag := some { value := some (str "v1.0") } },
    updateAvailable := false, result := none, link := none,
    labels := [], id := some (str "abc123") }

/-- An update-available record whose `result.link` ends in `"undefined"` but
whose `result.tag` is absent, used for claim C9. -/
def recC9undef : ContainerRecord :=
  { name := str "app", image := none, updateAvailable := true,
    result := some { tag := none,
                     link := some (str "https://g/releases/download/v1.undefined") },
    link := none, labels := [], id := none }

/-- An update-available record whose `result.link` ends in `"."` but whose
`result.tag` is absent, used for claim C9. -/
def recC9dot : ContainerRecord :=
  { name := str "app", image := none, updateAvailable := true,
    result := some { tag := none,
                     link := some (str "https://g/releases/tag/v1.") },
    link := none, labels := [], id := none }

/-- An update-available record carrying the malformed pre-release link of
claim C1's example. -/
def recC1 : ContainerRecord :=
  { name := str "app", image := none, updateAvailable := true,
    result := some { tag := some (str "v1.2.3"),
                     link := some (str "https://github.com/o/r/releases/download/v1.2.undefined") },
    link := none, labels := [], id := none }

/-! ### Claim C3: latest version projection -/

/-- C3: for every container record present in the snapshot, `latest_version`
equals `record.result.tag` when `updateAvailable` is true and equals the
installed version (`record.image.tag.value`) when it is false; when the
container key is absent from the snapshot, `latest_version` is absent. -/
theorem latest_version_follows_updateAvailable (data : Snapshot) (n : Str) :
    latest_version data n =
      ((lookupName data n).bind fun rec =>
        if rec.updateAvailable then rec.resultTag else rec.imageTagValue) ∧
    (∀ rec, lookupName data n = some rec → rec.updateAvailable = false →
      latest_version data n = installed_version data n) ∧
    (lookupName data n = none → latest_version data n = none) := by
  refine ⟨?_, ?_, ?_⟩
  · cases h : lookupName data n with
    | none => simp [latest_version, h]
    | some rec => simp [latest_version, h]
  · intro rec h hfalse
    simp [latest_version, installed_version, h, hfalse]
  · intro h
    simp [latest_version, h]

/-- Witness for C3 at concrete snapshots: a record with `updateAvailable`
false, and a lookup miss. -/
theorem latest_version_follows_updateAvailable_witness :
    latest_version [(str "app", recC3)] (str "app") =
      installed_version [(str "app", recC3)] (str "app") ∧
    latest_version [(str "app", recC3)] (str "other") = none := by
  constructor
  · exact (latest_version_follows_updateAvailable [(str "app", recC3)] (str "app")).2.1
      recC3 (by decide) (by decide)
  · exact (latest_version_follows_updateAvailable [(str "app", recC3)] (str "other")).2.2
      (by decide)

/-! ### Claim C4: failed refresh keeps the old snapshot -/

/-- C4: when a refresh fails for any reason (timeout, client/network error,
or any other exception), the stored snapshot is unchanged, the coordinator's
`last_update_success` becomes false (so `available` is false for every
entity), and `_async_update_data` turns every exception into the designated
`UpdateFailed` signal. -/
theorem refresh_failure_keeps_snapshot (s : CoordinatorState) (e : FetchError) :
    refreshStep s (.error e) =
      { data := s.data, last_update_success := false } ∧
    entity_available (refreshStep s (.error e)) = false ∧
    ∃ m, async_update_data (Except.error e) = .error m := by
  cases e with
  | timeout m => exact ⟨rfl, rfl, _, rfl⟩
  | clientError m => exact ⟨rfl, rfl, _, rfl⟩
  | other m => exact ⟨rfl, rfl, _, rfl⟩

/-! ### Claim C6: HTTP 403 from the GitHub API never errors -/

/-- C6: whenever the release-notes lookup reaches the GitHub API and the
response has status 403, `async_release_notes` returns an absent result and
raises nothing (given that reading `release_url` itself did not raise). -/
theorem release_notes_403_absent (data : Snapshot) (n : Str)
    (http : Str → HttpOutcome) (u : Option Str) (body : Option Str)
    (h1 : release_url data n = .ok u)
    (h2 : ∀ apiUrl, http apiUrl = .resp 403 body) :
    async_release_notes data n http = .ok none := by
  unfold async_release_notes
  cases hrec : lookupName data n with
  | none => rfl
  | some rec =>
    rw [h1]
    cases u with
    | none => rfl
    | some url =>
      simp only [fetchNotes, h2]
      split <;> simp

/-- Witness for C6: a concrete snapshot whose record links to a GitHub tag
page, with every request answered 403. -/
theorem release_notes_403_absent_witness :
    async_release_notes [(str "app", recC6)] (str "app")
      (fun _ => .resp 403 (some (str "notes"))) = .ok none :=
  release_notes_403_absent [(str "app", recC6)] (str "app")
    (fun _ => .resp 403 (some (str "notes")))
    (some (str "https://github.com/o/r/releases/tag/v1.0")) (some (str "notes"))
    rfl (fun _ => rfl)

/-! ### Claim C5: non-403 HTTP failures are swallowed, not propagated -/

/-- C5 counterexample: a GitHub API response with status 500 does not
propagate any failure out of `async_release_notes`; the call returns an
absent (`none`) result, because `raise_for_status` raises
`aiohttp.ClientResponseError`, a `ClientError`, which the very next handler
catches and converts to `None`. -/
theorem release_notes_500_swallowed :
    async_release_notes [(str "app", recC5)] (str "app")
      (fun _ => .resp 500 (some (str "notes"))) = .ok none := rfl

/-- C5 amended: every non-success HTTP status other than 403 from the GitHub
API yields an absent (`None`) release-notes result; the failure is caught
inside `async_release_notes` and never propagated to the caller. -/
theorem release_notes_non403_failure_absent (data : Snapshot) (n : Str)
    (http : Str → HttpOutcome) (status : Nat) (body : Option Str) (u : Option Str)
    (h1 : release_url data n = .ok u)
    (h2 : ∀ apiUrl, http apiUrl = .resp status body)
    (h3 : 400 ≤ status) (h4 : status ≠ 403) :
    async_release_notes data n http = .ok none := by
  unfold async_release_notes
  cases hrec : lookupName data n with
  | none => rfl
  | some rec =>
    rw [h1]
    cases u with
    | none => rfl
    | some url =>
      simp only [fetchNotes, h2, h4, if_false, if_neg h4, if_pos h3]
      split <;> simp

/-- Witness for C5's amended claim at a concrete snapshot and a concrete
status 500 response. -/
theorem release_notes_non403_failure_absent_witness :
    async_release_notes [(str "app", recC5)] (str "app")
      (fun _ => .resp 500 none) = .ok none :=
  release_notes_non403_failure_absent [(str "app", recC5)] (str "app")
    (fun _ => .resp 500 none) 500 none
    (some (str "https://github.com/o/r/releases/tag/v1.0"))
    rfl (fun _ => rfl) (by decide) (by decide)

/-! ### Claim C7: install without the trigger label is a no-op -/

/-- C7: for every container whose record is absent from the snapshot or whose
record lacks the label `wud.trigger.hass`, `async_install` performs no
network call and returns without raising. -/
theorem install_without_trigger_label_noop (base : Str) (data : Snapshot) (n : Str) :
    (lookupName data n = none → async_install base data n = .noop) ∧
    (∀ rec, lookupName data n = some rec →
      lookupLabel rec.labels (str "wud.trigger.hass") = none →
      async_install base data n = .noop) := by
  constructor
  · intro h
    simp [async_install, h]
  · intro rec h hlabel
    simp [async_install, h, hlabel]

/-- Witness for C7: a concrete record with no labels, and a lookup miss. -/
theorem install_without_trigger_label_noop_witness :
    async_install (str "http://h/api/containers") [(str "app", recC7)] (str "app") = .noop ∧
    async_install (str "http://h/api/containers") [(str "app", recC7)] (str "other") = .noop := by
  constructor
  · exact (install_without_trigger_label_noop (str "http://h/api/containers")
      [(str "app", recC7)] (str "app")).2 recC7 (by decide) (by decide)
  · exact (install_without_trigger_label_noop (str "http://h/api/containers")
      [(str "app", recC7)] (str "other")).1 (by decide)

/-! ### Claim C9: release_url raises TypeError when the tag is absent -/

/-- C9: `release_url` is not total when the chosen tag may be absent: with
`updateAvailable` true, a `result.link` ending in `"undefined"` (or `"."`)
and `result.tag` absent, reading `release_url` raises `TypeError`
(`re.search` applied to `None`) instead of returning a value. -/
theorem release_url_typeerror_when_tag_absent :
    release_url [(str "app", recC9undef)] (str "app") = .error .typeError ∧
    release_url [(str "app", recC9dot)] (str "app") = .error .typeError :=
  ⟨rfl, rfl⟩

/-! ### Claim C1: release_url applies the two fixups to the chosen link -/

/-- C1: for every container record present in the snapshot whose chosen tag
(`result.tag` when `updateAvailable`, else `image.tag.value`) is a string,
`release_url` returns the chosen link (`result.link` when `updateAvailable`,
else the record's `link`) with the two fixups applied in order: a link ending
in `"undefined"` has `"undefined"` replaced by the tag's trailing digit run
(kept intact when the tag has no trailing digits); otherwise a link ending in
`"."` gets the digit run appended. -/
theorem release_url_applies_fixups (data : Snapshot) (n : Str)
    (rec : ContainerRecord) (t : Str)
    (h1 : lookupName data n = some rec) (h2 : chosenTag rec = some t) :
    release_url data n = .ok ((chosenLink rec).map fun l => fixupLink l t) := by
  have hlink : (if rec.updateAvailable then rec.resultLink else rec.link) = chosenLink rec := rfl
  have htag : (if rec.updateAvailable then rec.resultTag else rec.imageTagValue) = chosenTag rec := rfl
  unfold release_url
  rw [h1]
  dsimp only
  rw [hlink, htag, h2]
  cases hL : chosenLink rec with
  | none => rfl
  | some l =>
    dsimp only [Option.map]
    unfold fixupLink
    split
    · split <;> rename_i hds <;> simp [hds]
    · split
      · split <;> rename_i hds <;> simp [hds]
      · rfl

/-- Witness for C1, which is exactly the claim's example: the record's
`result.link` `".../releases/download/v1.2.undefined"` together with tag
`"v1.2.3"` yields `".../releases/download/v1.2.3"`. -/
theorem release_url_applies_fixups_witness :
    release_url [(str "app", recC1)] (str "app") =
      .ok (some (str "https://github.com/o/r/releases/download/v1.2.3")) := by
  rw [release_url_applies_fixups [(str "app", recC1)] (str "app") recC1 (str "v1.2.3")
    (by decide) (by decide)]
  rfl

/-! ### Claim C10: fixup 1 replaces every occurrence of "undefined" -/

/-- C10: when the chosen link ends with `"undefined"` and the chosen tag has
a trailing run of decimal digits, fixup 1 performs `str.replace`, which
substitutes the digits for every occurrence of `"undefined"` anywhere in the
link, not only the trailing one — as the second conjunct shows on a link with
a non-trailing occurrence. -/
theorem fixup_replaces_all_occurrences (l t : Str)
    (h1 : pyEndsWith l (str "undefined") = true)
    (h2 : trailingDigits t ≠ []) :
    fixupLink l t = pyReplace l (str "undefined") (trailingDigits t) ∧
    fixupLink (str "https://h/undefined/x/undefined") (str "v2.7") =
      str "https://h/7/x/7" := by
  constructor
  · simp [fixupLink, h1, h2]
  · decide

/-- Witness for C10 at the concrete multi-occurrence link. -/
theorem fixup_replaces_all_occurrences_witness :
    fixupLink (str "https://h/undefined/x/undefined") (str "v2.7") =
      pyReplace (str "https://h/undefined/x/undefined") (str "undefined")
        (trailingDigits (str "v2.7")) :=
  (fixup_replaces_all_occurrences (str "https://h/undefined/x/undefined")
    (str "v2.7") (by decide) (by decide)).1

/-! ### Claim C2: the snapshot keys containers by name, last occurrence wins -/

theorem lookupName_dictInsert (m : Snapshot) (k : Str) (v : ContainerRecord) (n : Str) :
    lookupName (dictInsert m k v) n = if k = n then some v else lookupName m n := by
  induction m with
  | nil => rfl
  | cons hd tl ih =>
    obtain ⟨k₀, v₀⟩ := hd
    by_cases h : k₀ = k
    · subst h
      simp only [dictInsert, if_pos rfl, lookupName]
      by_cases hn : k₀ = n <;> simp [hn]
    · simp only [dictInsert, if_neg h, lookupName, ih]
      by_cases hn : k₀ = n <;> by_cases hk : k = n <;> simp_all

theorem keys_dictInsert (m : Snapshot) (k : Str) (v : ContainerRecord) :
    (dictInsert m k v).map Prod.fst =
      if k ∈ m.map Prod.fst then m.map Prod.fst else m.map Prod.fst ++ [k] := by
  induction m with
  | nil =>
    rw [List.map_nil, if_neg (List.not_mem_nil k)]
    rfl
  | cons hd tl ih =>
    obtain ⟨k₀, v₀⟩ := hd
    by_cases h : k₀ = k
    · subst h
      rw [show dictInsert ((k₀, v₀) :: tl) k₀ v = (k₀, v) :: tl from by
        simp only [dictInsert, eq_self_iff_true, if_true]]
      rw [List.map_cons, List.map_cons, if_pos (List.mem_cons_self k₀ _)]
    · rw [show dictInsert ((k₀, v₀) :: tl) k v = (k₀, v₀) :: dictInsert tl k v from by
        simp only [dictInsert, if_neg h]]
      rw [List.map_cons, List.map_cons, ih]
      by_cases hm : k ∈ tl.map Prod.fst
      · rw [if_pos hm, if_pos (List.mem_cons_of_mem k₀ hm)]
      · rw [if_neg hm, if_neg, List.cons_append]
        intro hc
        rcases List.mem_cons.mp hc with hkk | hmm
        · exact h hkk.symm
        · exact hm hmm

theorem nodup_keys_dictInsert (m : Snapshot) (k : Str) (v : ContainerRecord)
    (h : (m.map Prod.fst).Nodup) : ((dictInsert m k v).map Prod.fst).Nodup := by
  rw [keys_dictInsert]
  split
  · exact h
  · rename_i hk
    refine List.Nodup.append h (List.nodup_singleton k) ?_
    intro a ha hb
    rw [List.mem_singleton] at hb
    exact hk (hb ▸ ha)

theorem mem_keys_dictInsert (m : Snapshot) (k : Str) (v : ContainerRecord) (n : Str) :
    n ∈ (dictInsert m k v).map Prod.fst ↔ n = k ∨ n ∈ m.map Prod.fst := by
  rw [keys_dictInsert]
  split
  · rename_i hk
    constructor
    · exact Or.inr
    · rintro (rfl | h)
      · exact hk
      · exact h
  · constructor
    · intro hx
      rcases List.mem_append.mp hx with h1 | h1
      · exact Or.inr h1
      · exact Or.inl (List.mem_singleton.mp h1)
    · rintro (rfl | h1)
      · exact List.mem_append.mpr (Or.inr (List.mem_singleton.mpr rfl))
      · exact List.mem_append.mpr (Or.inl h1)

theorem buildSnapshot_go_nodup (l : List ContainerRecord) :
    ∀ m : Snapshot, (m.map Prod.fst).Nodup →
      ((l.foldl (fun m c => dictInsert m c.name c) m).map Prod.fst).Nodup := by
  induction l with
  | nil => exact fun m h => h
  | cons c rest ih =>
    intro m h
    exact ih _ (nodup_keys_dictInsert m c.name c h)

theorem buildSnapshot_go_mem (l : List ContainerRecord) :
    ∀ (m : Snapshot) (n : Str),
      (n ∈ (l.foldl (fun m c => dictInsert m c.name c) m).map Prod.fst) ↔
        n ∈ m.map Prod.fst ∨ n ∈ l.map ContainerRecord.name := by
  induction l with
  | nil =>
    intro m n
    simp only [List.foldl_nil, List.map_nil, List.not_mem_nil, or_false]
  | cons c rest ih =>
    intro m n
    rw [List.foldl_cons, ih, mem_keys_dictInsert]
    simp only [List.map_cons, List.mem_cons]
    tauto

theorem buildSnapshot_go_lookup (l : List ContainerRecord) :
    ∀ (m : Snapshot) (n : Str),
      lookupName (l.foldl (fun m c => dictInsert m c.name c) m) n =
        (l.reverse.find? fun c => c.name == n).or (lookupName m n) := by
  induction l with
  | nil => intro m n; simp
  | cons c rest ih =>
    intro m n
    rw [List.foldl_cons, ih, List.reverse_cons, List.find?_append, Option.or_assoc]
    congr 1
    rw [lookupName_dictInsert]
    by_cases h : c.name = n
    · have hb : (c.name == n) = true := beq_iff_eq.mpr h
      simp [List.find?_cons, hb, h]
    · have hb : (c.name == n) = false := beq_eq_false_iff_ne.mpr h
      simp [List.find?_cons, hb, h]

/-- C2: the snapshot built from a JSON array of container records has exactly
one entry per distinct `name` (keys are duplicate-free and are exactly the
names occurring in the array), and looking a name up yields the last record
in array order carrying that name. -/
theorem snapshot_one_entry_per_name_last_wins
    (containers : List ContainerRecord) (n : Str) :
    ((buildSnapshot containers).map Prod.fst).Nodup ∧
    (n ∈ (buildSnapshot containers).map Prod.fst ↔
      n ∈ containers.map ContainerRecord.name) ∧
    lookupName (buildSnapshot containers) n =
      containers.reverse.find? fun c => c.name == n := by
  refine ⟨?_, ?_, ?_⟩
  · exact buildSnapshot_go_nodup containers [] (by simp)
  · rw [buildSnapshot, buildSnapshot_go_mem]
    simp
  · rw [buildSnapshot, buildSnapshot_go_lookup]
    simp [lookupName, Option.or_none]

/-! ### Claim C8: the release-URL fixup is idempotent -/

theorem replaceGo_skip (pat rep : Str) :
    ∀ (s : Str) (k : Nat), replaceGo pat rep s k = replaceGo pat rep (s.drop k) 0 := by
  intro s
  induction s with
  | nil => intro k; cases k <;> rfl
  | cons c rest ih =>
    intro k
    cases k with
    | zero => rfl
    | succ k => exact ih k

theorem replaceGo_short (pat rep : Str) :
    ∀ s : Str, s.length < pat.length → replaceGo pat rep s 0 = s := by
  intro s
  induction s with
  | nil => intro h; rfl
  | cons c rest ih =>
    intro h
    have hpre : ¬ (pat.isPrefixOf (c :: rest) = true) := by
      intro hp
      have hle := (List.isPrefixOf_iff_prefix.mp hp).length_le
      simp only [List.length_cons] at h hle
      omega
    simp only [replaceGo]
    rw [if_neg hpre, ih (by simp only [List.length_cons] at h; omega)]

theorem getLast?_of_suffix {a b : Str} (h : a <:+ b) (ha : a ≠ []) :
    b.getLast? = a.getLast? := by
  obtain ⟨p, hp⟩ := h
  rw [← hp, List.getLast?_append]
  cases hal : a.getLast? with
  | none => exact absurd (List.getLast?_eq_none_iff.mp hal) ha
  | some x => rw [Option.or_some]

theorem replace_suffix_aux (d : Str) :
    ∀ (fuel : Nat) (s : Str), s.length ≤ fuel → str "undefined" <:+ s →
      ∃ w, w <:+ str "undefined" ∧ w ≠ str "undefined" ∧
        (d ++ w) <:+ replaceGo (str "undefined") d s 0 := by
  intro fuel
  induction fuel with
  | zero =>
    intro s hlen hsuf
    have h9 : (str "undefined").length = 9 := rfl
    have hle := hsuf.length_le
    omega
  | succ fuel ih =>
    intro s hlen hsuf
    have h9 : (str "undefined").length = 9 := rfl
    have hslen : 9 ≤ s.length := by
      have hle := hsuf.length_le
      omega
    cases s with
    | nil => exact absurd hslen (by simp)
    | cons c rest =>
      by_cases hpre : (str "undefined").isPrefixOf (c :: rest) = true
      · have hgo : replaceGo (str "undefined") d (c :: rest) 0 =
            d ++ replaceGo (str "undefined") d (rest.drop 8) 0 := by
          simp only [replaceGo]
          rw [if_pos hpre, replaceGo_skip, h9]
        rcases Nat.lt_or_ge (rest.drop 8).length 1 with h0 | h1
        · have hnil : rest.drop 8 = [] := List.length_eq_zero.mp (by omega)
          refine ⟨[], List.nil_suffix, ?_, ?_⟩
          · intro heq
            have hlb : ([] : Str).length = (str "undefined").length := by rw [heq]
            rw [h9] at hlb
            simp at hlb
          · rw [hgo, hnil]
            exact List.suffix_refl _
        · rcases Nat.lt_or_ge (rest.drop 8).length 9 with hlt | hge
          · have hremsuf : rest.drop 8 <:+ c :: rest :=
              (List.drop_suffix 8 rest).trans (List.suffix_cons c rest)
            have hrem_undef : rest.drop 8 <:+ str "undefined" := by
              rcases List.suffix_or_suffix_of_suffix hremsuf hsuf with h | h
              · exact h
              · have hle := h.length_le
                rw [h9] at hle
                omega
            refine ⟨rest.drop 8, hrem_undef, ?_, ?_⟩
            · intro heq
              have hlq : (rest.drop 8).length = 9 := by rw [heq]; exact h9
              omega
            · rw [hgo, replaceGo_short _ _ _ (by rw [h9]; omega)]
          · have hremsuf : rest.drop 8 <:+ c :: rest :=
              (List.drop_suffix 8 rest).trans (List.suffix_cons c rest)
            have hu : str "undefined" <:+ rest.drop 8 := by
              rcases List.suffix_or_suffix_of_suffix hsuf hremsuf with h | h
              · exact h
              · have heq := h.eq_of_length_le (by rw [h9]; omega)
                rw [heq]
            have hlen2 : (rest.drop 8).length ≤ fuel := by
              simp only [List.length_drop]
              simp only [List.length_cons] at hlen
              omega
            obtain ⟨w, hw1, hw2, hw3⟩ := ih (rest.drop 8) hlen2 hu
            refine ⟨w, hw1, hw2, ?_⟩
            rw [hgo]
            exact hw3.trans (List.suffix_append d _)
      · have hgo : replaceGo (str "undefined") d (c :: rest) 0 =
            c :: replaceGo (str "undefined") d rest 0 := by
          simp only [replaceGo]
          rw [if_neg hpre]
        have hlen10 : 10 ≤ (c :: rest).length := by
          rcases Nat.lt_or_ge (c :: rest).length 10 with h | h
          · exfalso
            have heq : str "undefined" = c :: rest := hsuf.eq_of_length (by omega)
            rw [← heq] at hpre
            exact hpre (by decide)
          · exact h
        have hrest : str "undefined" <:+ rest := by
          rcases List.suffix_or_suffix_of_suffix hsuf (List.suffix_cons c rest) with h | h
          · exact h
          · have heq := h.eq_of_length_le (by
              simp only [List.length_cons] at hlen10
              rw [h9]
              omega)
            rw [heq]
        have hlen2 : rest.length ≤ fuel := by
          simp only [List.length_cons] at hlen
          omega
        obtain ⟨w, hw1, hw2, hw3⟩ := ih rest hlen2 hrest
        refine ⟨w, hw1, hw2, ?_⟩
        rw [hgo]
        exact hw3.trans (List.suffix_cons c _)

theorem no_bad_suffix (d w r : Str) (hd : d ≠ [])
    (hdig : ∀ c ∈ d, c.isDigit = true)
    (hw : w <:+ str "undefined") (hwne : w ≠ str "undefined")
    (hr : (d ++ w) <:+ r) :
    pyEndsWith r (str "undefined") = false ∧ pyEndsWith r (str ".") = false := by
  have h9 : (str "undefined").length = 9 := rfl
  have hlastmem : d.getLast hd ∈ d := List.getLast_mem hd
  have hlastdig : (d.getLast hd).isDigit = true := hdig _ hlastmem
  have htsuf : (d.getLast hd :: w) <:+ d ++ w := by
    refine ⟨d.dropLast, ?_⟩
    rw [show d.dropLast ++ (d.getLast hd :: w) = (d.dropLast ++ [d.getLast hd]) ++ w from by
      rw [List.append_assoc]; rfl]
    rw [List.dropLast_append_getLast hd]
  have htr : (d.getLast hd :: w) <:+ r := htsuf.trans hr
  have hwlen : w.length < 9 := by
    have h1 := hw.length_le
    rcases Nat.lt_or_ge w.length 9 with h | h
    · exact h
    · exact absurd (hw.eq_of_length (by omega)) hwne
  constructor
  · rw [Bool.eq_false_iff]
    intro hcon
    have hu : str "undefined" <:+ r := List.isSuffixOf_iff_suffix.mp hcon
    have htu : (d.getLast hd :: w) <:+ str "undefined" := by
      rcases List.suffix_or_suffix_of_suffix htr hu with h | h
      · exact h
      · have heq := h.eq_of_length_le (by simp only [List.length_cons]; omega)
        rw [← heq]
    have hmem : d.getLast hd ∈ str "undefined" := htu.subset (List.mem_cons_self _ _)
    have hnodig : ∀ c ∈ str "undefined", c.isDigit = false := by decide
    rw [hnodig _ hmem] at hlastdig
    exact Bool.false_ne_true hlastdig
  · rw [Bool.eq_false_iff]
    intro hcon
    have hdot : str "." <:+ r := List.isSuffixOf_iff_suffix.mp hcon
    have h1 : r.getLast? = some '.' := by
      rw [getLast?_of_suffix hdot (by decide)]
      rfl
    have h2 : r.getLast? = (d.getLast hd :: w).getLast? :=
      getLast?_of_suffix htr (List.cons_ne_nil _ _)
    cases hwc : w with
    | nil =>
      subst hwc
      have h6 : (d.getLast hd :: ([] : Str)).getLast? = some (d.getLast hd) := rfl
      rw [h2, h6] at h1
      have h7 : d.getLast hd = '.' := Option.some.inj h1
      rw [h7] at hlastdig
      exact absurd hlastdig (by decide)
    | cons a as =>
      have hwnil : w ≠ [] := by rw [hwc]; exact List.cons_ne_nil a as
      have h3 : (d.getLast hd :: w).getLast? = w.getLast? := by
        rw [hwc]
        exact List.getLast?_cons_cons
      have h4 : w.getLast? = (str "undefined").getLast? :=
        (getLast?_of_suffix hw hwnil).symm
      have h5 : (str "undefined").getLast? = some 'd' := rfl
      rw [h2, h3, h4, h5] at h1
      exact absurd h1 (by decide)

/-- C8: the release-URL fixup leaves unchanged every link ending in neither
`"undefined"` nor `"."`, and applying the fixup twice (with the same tag)
always yields the same string as applying it once. -/
theorem release_url_fixup_idempotent (l t : Str) :
    (pyEndsWith l (str "undefined") = false → pyEndsWith l (str ".") = false →
      fixupLink l t = l) ∧
    fixupLink (fixupLink l t) t = fixupLink l t := by
  have hdig : ∀ c ∈ trailingDigits t, c.isDigit = true := by
    intro c hc
    rw [trailingDigits, List.mem_reverse] at hc
    exact List.mem_takeWhile_imp hc
  constructor
  · intro h1 h2
    simp [fixupLink, h1, h2]
  · by_cases h1 : pyEndsWith l (str "undefined") = true
    · by_cases h2 : trailingDigits t = []
      · have hfix : fixupLink l t = l := by simp [fixupLink, h1, h2]
        rw [hfix]
        exact hfix
      · have hfix : fixupLink l t = pyReplace l (str "undefined") (trailingDigits t) := by
          simp [fixupLink, h1, h2]
        have hsuf : str "undefined" <:+ l := List.isSuffixOf_iff_suffix.mp h1
        obtain ⟨w, hw1, hw2, hw3⟩ :=
          replace_suffix_aux (trailingDigits t) l.length l le_rfl hsuf
        obtain ⟨hnu, hnd⟩ := no_bad_suffix (trailingDigits t) w _ h2 hdig hw1 hw2 hw3
        rw [hfix]
        simp [fixupLink, pyReplace, hnu, hnd]
    · by_cases h2 : pyEndsWith l (str ".") = true
      · by_cases h3 : trailingDigits t = []
        · have hfix : fixupLink l t = l := by simp [fixupLink, h1, h2, h3]
          rw [hfix]
          exact hfix
        · have hfix : fixupLink l t = l ++ trailingDigits t := by
            simp [fixupLink, h1, h2, h3]
          have hr : (trailingDigits t ++ []) <:+ l ++ trailingDigits t := by
            rw [List.append_nil]
            exact List.suffix_append l _
          obtain ⟨hnu, hnd⟩ := no_bad_suffix (trailingDigits t) [] _ h3 hdig
            List.nil_suffix (by decide) hr
          rw [hfix]
          simp [fixupLink, hnu, hnd]
      · have hfix : fixupLink l t = l := by simp [fixupLink, h1, h2]
        rw [hfix]
        exact hfix

/-- Witness for C8: an untouched link, and a malformed pre-release link on
which running the fixup a second time changes nothing. -/
theorem release_url_fixup_idempotent_witness :
    fixupLink (str "https://g/releases/tag/v1.0") (str "v1.0") =
      str "https://g/releases/tag/v1.0" ∧
    fixupLink (fixupLink (str "https://g/v1.2.undefined") (str "v1.2.3")) (str "v1.2.3") =
      fixupLink (str "https://g/v1.2.undefined") (str "v1.2.3") := by
  constructor
  · exact (release_url_fixup_idempotent (str "https://g/releases/tag/v1.0") (str "v1.0")).1
      (by decide) (by decide)
  · exact (release_url_fixup_idempotent (str "https://g/v1.2.undefined") (str "v1.2.3")).2

end WUD
